import Mathlib

/-!
A verification development for the trace-report decoding utilities in
`tensorflow/compiler/plugin/poplar/tests/test_utils.py`.

The Python module is shallowly embedded: payload byte strings are modelled by
their decode outcome (a payload is either empty, decodes to a JSON value,
fails UTF-8 decoding, or is valid UTF-8 but invalid JSON), `json.loads` by a
function from payloads to `Except`, Python exceptions by an error type, and
the mutable `ReportJSON` object state by an explicit state record threaded
through `parse_events`.  Real division (Python `/` under
`from __future__ import division`) is modelled by rational division, and
Python `int()` truncation by integer division rounding toward zero.
-/

/-- The `IpuTraceEvent.type` enum from `trace_pb2` (external protocol). -/
inductive EventType
  | COMPILE_BEGIN
  | COMPILE_END
  | HOST_TO_DEVICE_TRANSFER
  | DEVICE_TO_HOST_TRANSFER
  | LOAD_ENGINE
  | EXECUTE
deriving DecidableEq, Repr

/-- JSON values, the result of a successful `json.loads`.  Numbers are
integers, matching the integer-valued report schema fields used by the
queries under verification. -/
inductive JsonValue
  | num (n : ℤ)
  | str (s : String)
  | bool (b : Bool)
  | null
  | arr (elems : List JsonValue)
  | obj (fields : List (String × JsonValue))

/-- Python truthiness of a JSON value (`bool(x)`). -/
def pyTruthy : JsonValue → Bool
  | .num n => n != 0
  | .str s => s != ""
  | .bool b => b
  | .null => false
  | .arr l => !l.isEmpty
  | .obj l => !l.isEmpty

/-- A payload byte string, modelled by its decode outcome: `empty` is the
empty byte string (falsy in Python), `decodes v` is a byte string that
`json.loads` decodes to `v`, `badUtf8` raises `UnicodeDecodeError`, and
`badJson` is valid UTF-8 that raises `JSONDecodeError` (a `ValueError`). -/
inductive Payload
  | empty
  | decodes (v : JsonValue)
  | badUtf8
  | badJson

/-- Python truthiness of a payload byte string: empty bytes are falsy. -/
def payloadTruthy : Payload → Bool
  | .empty => false
  | _ => true

/-- Python exceptions raised by the embedded code.  `keyError` also stands
for the `TypeError` / `ZeroDivisionError` family raised while computing
`get_num_tiles_per_ipu` during decoding: for control flow all that matters
is that none of these is a `UnicodeDecodeError`.  `testFailure` carries the
expected count, the actual count and the caller-supplied message of a failed
`assertEqual`. -/
inductive PyErr
  | assertionError
  | unicodeDecodeError
  | jsonDecodeError
  | keyError
  | typeError
  | indexError
  | testFailure (expected : Nat) (actual : Nat) (msg : String)
deriving DecidableEq, Repr

instance {ε α : Type} [DecidableEq ε] [DecidableEq α] : DecidableEq (Except ε α) := fun a b =>
  match a, b with
  | .error e, .error f => decidable_of_iff (e = f) (by simp)
  | .ok x, .ok y => decidable_of_iff (x = y) (by simp)
  | .error _, .ok _ => isFalse (by simp)
  | .ok _, .error _ => isFalse (by simp)

/-- `json.loads` on a payload byte string.  `json.loads` of the empty byte
string raises `JSONDecodeError` (the code only reaches this for the
`tensor_map` and `instruction_info` fields, which it loads unguarded). -/
def jsLoads : Payload → Except PyErr JsonValue
  | .decodes v => .ok v
  | .badUtf8 => .error PyErr.unicodeDecodeError
  | .empty => .error PyErr.jsonDecodeError
  | .badJson => .error PyErr.jsonDecodeError

/-- Ordered dictionary lookup on the field list of a JSON object. -/
def lookupStr : List (String × JsonValue) → String → Option JsonValue
  | [], _ => Option.none
  | (k, v) :: rest, key => if k = key then some v else lookupStr rest key

/-- `v[key]` on a JSON object; `Option.none` models the `KeyError`
(or `TypeError` on a non-object) that Python would raise. -/
def jget (v : JsonValue) (k : String) : Option JsonValue :=
  match v with
  | .obj l => lookupStr l k
  | _ => Option.none

/-- View a JSON value as an array. -/
def asArr : JsonValue → Option (List JsonValue)
  | .arr l => some l
  | _ => Option.none

/-- View a JSON value as an integer. -/
def asInt : JsonValue → Option ℤ
  | .num n => some n
  | _ => Option.none

/-- View a JSON value as an object field list. -/
def asObj : JsonValue → Option (List (String × JsonValue))
  | .obj l => some l
  | _ => Option.none

/-- Split a character list at the first closing bracket, returning the
content before it and the remainder after it (used by the glob compiler,
mirroring how `fnmatch.translate` scans for the end of a bracket set). -/
def findClosing : List Char → Option (List Char × List Char)
  | [] => Option.none
  | c :: rest =>
    if c = ']' then some ([], rest)
    else (findClosing rest).map (fun p => (c :: p.1, p.2))

/-- Parse a bracket set from the characters following an opening bracket:
an optional leading negation, then the set content, where a closing bracket
in first position is literal content, exactly as in `fnmatch.translate`.
Returns the negation flag, the content and the remaining pattern, or
`Option.none` when the set is unterminated (the opening bracket is then a
literal character). -/
def parseBracket (ps : List Char) : Option (Bool × List Char × List Char) :=
  let step := fun (neg : Bool) (ps1 : List Char) =>
    match ps1 with
    | ']' :: t => (findClosing t).map (fun p => (neg, ']' :: p.1, p.2))
    | _ => (findClosing ps1).map (fun p => (neg, p.1, p.2))
  match ps with
  | '!' :: t => step true t
  | _ => step false ps

/-- A compiled shell-glob pattern token. -/
inductive GlobTok
  | lit (c : Char)
  | anyChar
  | star
  | charSet (neg : Bool) (cs : List Char)
deriving DecidableEq, Repr

/-- Compile a shell-glob pattern to tokens, the counterpart of
`fnmatch.translate`.  The fuel argument bounds the recursion; every step
consumes at least one pattern character, so a fuel of one more than the
pattern length is always sufficient. -/
def compileGlob : Nat → List Char → List GlobTok
  | 0, _ => []
  | _ + 1, [] => []
  | fuel + 1, c :: ps =>
    if c = '*' then .star :: compileGlob fuel ps
    else if c = '?' then .anyChar :: compileGlob fuel ps
    else if c = '[' then
      match parseBracket ps with
      | Option.none => .lit '[' :: compileGlob fuel ps
      | some (neg, content, rest) => .charSet neg content :: compileGlob fuel rest
    else .lit c :: compileGlob fuel ps

/-- Membership of a character in a bracket-set content list, with ranges:
a dash between two characters denotes an inclusive range, as in the
character classes produced by `fnmatch.translate`. -/
def matchSet : List Char → Char → Bool
  | [], _ => false
  | a :: '-' :: b :: rest, c => (decide (a ≤ c) && decide (c ≤ b)) || matchSet rest c
  | a :: rest, c => (a == c) || matchSet rest c

/-- Match a token list against a character list, anchored at both ends
(shell-glob semantics over the full string).  The fuel argument bounds the
recursion; every step removes a token or a character, so a fuel of one more
than the sum of both lengths is always sufficient. -/
def matchToks : Nat → List GlobTok → List Char → Bool
  | 0, _, _ => false
  | _ + 1, [], [] => true
  | _ + 1, [], _ :: _ => false
  | fuel + 1, .star :: ts, s =>
    matchToks fuel ts s ||
      (match s with
       | [] => false
       | _ :: cs => matchToks fuel (.star :: ts) cs)
  | fuel + 1, .anyChar :: ts, _ :: cs => matchToks fuel ts cs
  | _ + 1, .anyChar :: _, [] => false
  | fuel + 1, .lit a :: ts, c :: cs => (a == c) && matchToks fuel ts cs
  | _ + 1, .lit _ :: _, [] => false
  | fuel + 1, .charSet neg content :: ts, c :: cs =>
      (matchSet content c != neg) && matchToks fuel ts cs
  | _ + 1, .charSet _ _ :: _, [] => false

/-- `fnmatch.fnmatch(name, pat)`: anchored shell-glob matching of a name
against a pattern (case normalisation is the identity on posix). -/
def fnmatch (name pat : String) : Bool :=
  let toks := compileGlob (pat.data.length + 1) pat.data
  matchToks (toks.length + name.data.length + 1) toks name.data

/-- The loop body of `missing_names_in_whitelist_entries`: collect, in
order, the non-empty names that match no whitelist pattern.  `wl` already
carries the implicit trailing wildcard. -/
def mnwGo (wl : List String) : List String → List String
  | [] => []
  | name :: rest =>
    if (name != "") && (wl.filter (fun x => fnmatch name x)).isEmpty then
      name :: mnwGo wl rest
    else mnwGo wl rest

/-- `missing_names_in_whitelist_entries(names, whitelist)`: every whitelist
entry is suffixed with a wildcard, and each non-empty name that matches no
suffixed entry is collected in order. -/
def missing_names_in_whitelist_entries (names whitelist : List String) : List String :=
  mnwGo (whitelist.map (fun x => x ++ "*")) names

/-- `missing_whitelist_entries_in_names(names, whitelist)`: every whitelist
entry is suffixed with a wildcard, and each suffixed entry that matches no
name is collected in order (the returned entries carry the wildcard, as in
the source). -/
def missing_whitelist_entries_in_names (names whitelist : List String) : List String :=
  (whitelist.map (fun x => x ++ "*")).filter
    (fun x => (names.filter (fun name => fnmatch name x)).isEmpty)

/-- Python `int()` applied to a rational: truncation toward zero. -/
def pyInt (q : ℚ) : ℤ := Int.tdiv q.num (q.den : ℤ)

/-- `TensorMap.Tile`: one `(tile, num_elements)` placement pair. -/
structure TensorMap.Tile where
  tile : ℤ
  num_elements : ℤ
deriving DecidableEq, Repr

/-- `TensorMap.Tensor`: one tensor record from an 8-element tuple of the
tensor-map payload.  The identity, shape, dtype and element-count entries
are kept as raw JSON values, as the source stores them unchecked. -/
structure TensorMap.Tensor where
  inst : JsonValue
  index : JsonValue
  shape : JsonValue
  dtype : JsonValue
  has_constant : Bool
  has_aliases : Bool
  num_elements : JsonValue
  tiles : List TensorMap.Tile

/-- `TensorMap`: tiles-per-IPU ratio and the computation-name-indexed
tensor mapping, in payload order. -/
structure TensorMap where
  num_tiles_per_ipu : ℚ
  mappings : List (String × List TensorMap.Tensor)

/-- Parse one `[tile_id, element_count]` pair.  The source asserts the pair
has length two; the schema types both entries as integers. -/
def parseTile (v : JsonValue) : Except PyErr TensorMap.Tile :=
  match v with
  | .arr [a, b] =>
    match asInt a, asInt b with
    | some ta, some nb => .ok ⟨ta, nb⟩
    | _, _ => .error PyErr.typeError
  | .arr _ => .error PyErr.assertionError
  | _ => .error PyErr.typeError

/-- Parse one 8-element tensor tuple of the tensor-map payload. -/
def parseTensor (v : JsonValue) : Except PyErr TensorMap.Tensor :=
  match v with
  | .arr [i0, i1, i2, i3, i4, i5, i6, i7] =>
    match asArr i7 with
    | Option.none => .error PyErr.typeError
    | some tilesJson =>
      (tilesJson.mapM parseTile).map
        (fun tiles => ⟨i0, i1, i2, i3, pyTruthy i4, pyTruthy i5, i6, tiles⟩)
  | _ => .error PyErr.indexError

/-- The `TensorMap` constructor: iterate `tensor_map["mappings"].items()`
and build the tensor records; any malformed entry raises. -/
def TensorMap.ofJson (v : JsonValue) (q : ℚ) : Except PyErr TensorMap :=
  match jget v "mappings" with
  | Option.none => .error PyErr.keyError
  | some m =>
    match asObj m with
    | Option.none => .error PyErr.typeError
    | some mobj =>
      (mobj.mapM (fun (p : String × JsonValue) =>
        match asArr p.2 with
        | Option.none => (.error PyErr.typeError : Except PyErr (String × List TensorMap.Tensor))
        | some tl => (tl.mapM parseTensor).map (fun ts => (p.1, ts)))).map
        (fun mappings => ⟨q, mappings⟩)

/-- `Tensor.tile_ids`: the set of tile ids of one tensor (the source builds
the set and returns it as a list; only its set of elements is ever used). -/
def TensorMap.Tensor.tile_ids (t : TensorMap.Tensor) : Finset ℤ :=
  (t.tiles.map TensorMap.Tile.tile).toFinset

/-- The `computation` argument of `TensorMap.tile_ids` / `ipu_ids`:
`Python None`, a single name, or a list of names. -/
inductive Selection
  | all
  | one (s : String)
  | many (l : List String)

/-- The computation names selected by a `computation` argument: a list is
taken as is, a truthy (non-empty) name selects itself, and `None` or a
falsy name selects every mapping key. -/
def TensorMap.selected (tm : TensorMap) : Selection → List String
  | .many l => l
  | .one s => if s != "" then [s] else tm.mappings.map Prod.fst
  | .all => tm.mappings.map Prod.fst

/-- The loop of `TensorMap.tile_ids`: union the tile-id sets of the tensors
of each selected computation; a missing key raises `KeyError`. -/
def tileIdsGo (tm : TensorMap) : List String → Finset ℤ → Except PyErr (Finset ℤ)
  | [], ids => .ok ids
  | c :: rest, ids =>
    match List.lookup c tm.mappings with
    | Option.none => .error PyErr.keyError
    | some tensors =>
      tileIdsGo tm rest (tensors.foldl (fun acc t => acc ∪ t.tile_ids) ids)

/-- `TensorMap.tile_ids(computation)`. -/
def TensorMap.tile_ids (tm : TensorMap) (sel : Selection) : Except PyErr (Finset ℤ) :=
  tileIdsGo tm (tm.selected sel) ∅

/-- `TensorMap.ipu_ids(computation)`: map each tile id through
`int(tile_id / num_tiles_per_ipu)`, real division by the possibly
fractional tiles-per-IPU ratio followed by `int()` truncation. -/
def TensorMap.ipu_ids (tm : TensorMap) (sel : Selection) : Except PyErr (Finset ℤ) :=
  Except.map
    (fun ids => Finset.image (fun (tid : ℤ) => pyInt ((tid : ℚ) / tm.num_tiles_per_ipu)) ids)
    (TensorMap.tile_ids tm sel)

/-- The `self.events` dictionary of `ReportJSON`, keyed by event type.
Only four keys are ever written: the three singleton kinds hold one decoded
payload each, and `EXECUTE` holds the accumulated list of execution-report
payloads. -/
structure EventsDict where
  compile_end : Option JsonValue
  h2d : Option JsonValue
  d2h : Option JsonValue
  execute : Option (List JsonValue)

/-- The decoded state of a `ReportJSON` object: the fields assigned by
`parse_events` (`self.events`, `self.tensor_map`, `self.instruction_info`). -/
structure ReportJSON where
  events : EventsDict
  tensor_map : Option TensorMap
  instruction_info : JsonValue

/-- The state as freshly reset at the top of `parse_events`:
`self.events = {}`, `self.tensor_map = None`, `self.instruction_info = {}`. -/
def ReportJSON.initDecodeState : ReportJSON :=
  ⟨⟨Option.none, Option.none, Option.none, Option.none⟩, Option.none, JsonValue.obj []⟩

/-- `get_each_tile_memory`: the raw JSON sequence at
`compile_end["memory"]["byTile"]["total"]`; `Option.none` models the
`KeyError` raised when no compile-end report was decoded. -/
def ReportJSON.get_each_tile_memory (r : ReportJSON) : Option JsonValue :=
  (((r.events.compile_end.bind (jget · "memory")).bind (jget · "byTile")).bind (jget · "total"))

/-- `get_total_tile_memory`: `sum(get_each_tile_memory())`. -/
def ReportJSON.get_total_tile_memory (r : ReportJSON) : Option ℤ :=
  ((ReportJSON.get_each_tile_memory r).bind asArr).bind
    (fun l => (l.mapM asInt).map (fun ns => ns.foldl (fun a b => a + b) 0))

/-- `get_max_tile_memory`: `max(get_each_tile_memory())`; Python `max`
raises on an empty sequence, modelled by `Option.none`. -/
def ReportJSON.get_max_tile_memory (r : ReportJSON) : Option ℤ :=
  ((ReportJSON.get_each_tile_memory r).bind asArr).bind
    (fun l => (l.mapM asInt).bind
      (fun ns =>
        match ns with
        | [] => Option.none
        | x :: xs => some (xs.foldl max x)))

/-- `get_compute_sets`: the raw JSON sequence at
`compile_end["computeSets"]["names"]`. -/
def ReportJSON.get_compute_sets (r : ReportJSON) : Option JsonValue :=
  ((r.events.compile_end.bind (jget · "computeSets")).bind (jget · "names"))

/-- `get_num_ipus`: the raw JSON value at `compile_end["target"]["numIPUs"]`. -/
def ReportJSON.get_num_ipus (r : ReportJSON) : Option JsonValue :=
  ((r.events.compile_end.bind (jget · "target")).bind (jget · "numIPUs"))

/-- `get_num_tiles`: the raw JSON value at `compile_end["target"]["numTiles"]`. -/
def ReportJSON.get_num_tiles (r : ReportJSON) : Option JsonValue :=
  ((r.events.compile_end.bind (jget · "target")).bind (jget · "numTiles"))

/-- `get_num_tiles_per_ipu`: `get_num_tiles() / get_num_ipus()`, Python
true division, so the result is a (possibly fractional) rational.
`Option.none` models the `KeyError` / `TypeError` / `ZeroDivisionError`
family raised on a missing report, non-numeric fields, or zero IPUs. -/
def ReportJSON.get_num_tiles_per_ipu (r : ReportJSON) : Option ℚ :=
  match (ReportJSON.get_num_tiles r).bind asInt, (ReportJSON.get_num_ipus r).bind asInt with
  | some t, some i => if i = 0 then Option.none else some ((t : ℚ) / (i : ℚ))
  | _, _ => Option.none

/-- One decoded trace record (`IpuTraceEvent.FromString(e)`), with the
per-kind payload fields flattened: `compile_end.compilation_report`,
`compile_end.tensor_map`, `compile_end.instruction_info`,
`data_transfer.data_transfer` and `execute.execution_report`. -/
structure IpuTraceEvent where
  type : EventType
  compilation_report : Payload
  tensor_map : Payload
  instruction_info : Payload
  data_transfer : Payload
  execution_report : Payload

/-- The body of the per-event `try` block of `parse_events`.  Returns the
state as mutated so far, paired with the exception raised at that point, if
any: Python updates `self` field by field, so a partially applied update
survives a caught exception.  The duplicate-singleton `assert` statements
come before the payload loads, exactly as in the source. -/
def processEvent (st : ReportJSON) (evt : IpuTraceEvent) : ReportJSON × Option PyErr :=
  match evt.type with
  | .COMPILE_BEGIN => (st, Option.none)
  | .LOAD_ENGINE => (st, Option.none)
  | .COMPILE_END =>
    if payloadTruthy evt.compilation_report then
      if (st.events.compile_end).isSome then (st, some PyErr.assertionError)
      else
        match jsLoads evt.compilation_report with
        | .error e => (st, some e)
        | .ok report =>
          let st1 : ReportJSON :=
            ⟨⟨some report, st.events.h2d, st.events.d2h, st.events.execute⟩,
              st.tensor_map, st.instruction_info⟩
          match jsLoads evt.tensor_map with
          | .error e => (st1, some e)
          | .ok tmJson =>
            match ReportJSON.get_num_tiles_per_ipu st1 with
            | Option.none => (st1, some PyErr.keyError)
            | some q =>
              match TensorMap.ofJson tmJson q with
              | .error e => (st1, some e)
              | .ok tm =>
                let st2 : ReportJSON := ⟨st1.events, some tm, st1.instruction_info⟩
                match jsLoads evt.instruction_info with
                | .error e => (st2, some e)
                | .ok info => (⟨st2.events, st2.tensor_map, info⟩, Option.none)
    else (st, Option.none)
  | .HOST_TO_DEVICE_TRANSFER =>
    if payloadTruthy evt.data_transfer then
      if (st.events.h2d).isSome then (st, some PyErr.assertionError)
      else
        match jsLoads evt.data_transfer with
        | .error e => (st, some e)
        | .ok v =>
          (⟨⟨st.events.compile_end, some v, st.events.d2h, st.events.execute⟩,
             st.tensor_map, st.instruction_info⟩, Option.none)
    else (st, Option.none)
  | .DEVICE_TO_HOST_TRANSFER =>
    if payloadTruthy evt.data_transfer then
      if (st.events.d2h).isSome then (st, some PyErr.assertionError)
      else
        match jsLoads evt.data_transfer with
        | .error e => (st, some e)
        | .ok v =>
          (⟨⟨st.events.compile_end, st.events.h2d, some v, st.events.execute⟩,
             st.tensor_map, st.instruction_info⟩, Option.none)
    else (st, Option.none)
  | .EXECUTE =>
    if payloadTruthy evt.execution_report then
      match jsLoads evt.execution_report with
      | .error e => (st, some e)
      | .ok v =>
        (⟨⟨st.events.compile_end, st.events.h2d, st.events.d2h,
            some ((st.events.execute.getD []) ++ [v])⟩,
           st.tensor_map, st.instruction_info⟩, Option.none)
    else (st, Option.none)

/-- `events_types[k] += 1` on a `defaultdict(int)`, preserving first-seen
key order: an absent key is appended with count one. -/
def histIncr (h : List (EventType × Nat)) (k : EventType) : List (EventType × Nat) :=
  if h.any (fun p => p.1 == k) then
    h.map (fun p => if p.1 == k then (p.1, p.2 + 1) else p)
  else h ++ [(k, 1)]

/-- The event loop of `parse_events`: count each event's kind, then run the
`try` block; only a `UnicodeDecodeError` is caught (decoding continues with
the partially updated state), every other exception propagates out. -/
def parseLoop : ReportJSON → List (EventType × Nat) → List IpuTraceEvent →
    Except PyErr (List (EventType × Nat) × ReportJSON)
  | st, hist, [] => .ok (hist, st)
  | st, hist, e :: rest =>
    match processEvent st e with
    | (st2, Option.none) => parseLoop st2 (histIncr hist e.type) rest
    | (st2, some PyErr.unicodeDecodeError) => parseLoop st2 (histIncr hist e.type) rest
    | (_, some err) => .error err

/-- `ReportJSON.parse_events(events, assert_len, assert_msg)`.  A truthy
(non-`None`, non-zero) `assert_len` that differs from the record count
fails the `assertEqual`; otherwise the decoded state is rebuilt from
scratch — the prior state `self` is never read. -/
def ReportJSON.parse_events (self : ReportJSON) (events : List IpuTraceEvent)
    (a_len : Option Nat) (a_msg : String) :
    Except PyErr (List (EventType × Nat) × ReportJSON) :=
  match a_len with
  | some n =>
    if n ≠ 0 ∧ n ≠ events.length then .error (PyErr.testFailure n events.length a_msg)
    else parseLoop ReportJSON.initDecodeState [] events
  | Option.none => parseLoop ReportJSON.initDecodeState [] events

/-- Whether the length assertion at the top of `parse_events` lets decoding
proceed: `assert_len` is `None`, is zero (falsy, so unchecked), or equals
the record count. -/
def assertLenPasses (a_len : Option Nat) (k : Nat) : Prop :=
  match a_len with
  | some n => n = 0 ∨ n = k
  | Option.none => True

/-- Whether a singleton event kind already has a decoded payload recorded
in `self.events` (the condition tested by the duplicate `assert`). -/
def recordedSingleton (st : ReportJSON) : EventType → Bool
  | .COMPILE_END => (st.events.compile_end).isSome
  | .HOST_TO_DEVICE_TRANSFER => (st.events.h2d).isSome
  | .DEVICE_TO_HOST_TRANSFER => (st.events.d2h).isSome
  | _ => false

/-- The payload whose truthiness guards the duplicate `assert` for an event
of a singleton kind. -/
def singletonGuardPayload (e : IpuTraceEvent) : Payload :=
  match e.type with
  | .COMPILE_END => e.compilation_report
  | .HOST_TO_DEVICE_TRANSFER => e.data_transfer
  | .DEVICE_TO_HOST_TRANSFER => e.data_transfer
  | _ => .empty

/-- A `LOAD_ENGINE` event with no payloads. -/
def loadEngineEvt : IpuTraceEvent :=
  ⟨.LOAD_ENGINE, .empty, .empty, .empty, .empty, .empty⟩

/-- A `HOST_TO_DEVICE_TRANSFER` event whose transfer payload decodes to
JSON `null`. -/
def h2dEvt : IpuTraceEvent :=
  ⟨.HOST_TO_DEVICE_TRANSFER, .empty, .empty, .empty, .decodes .null, .empty⟩

/-- An `EXECUTE` event whose execution report is not valid UTF-8. -/
def execBadUtf8Evt : IpuTraceEvent :=
  ⟨.EXECUTE, .empty, .empty, .empty, .empty, .badUtf8⟩

/-- An `EXECUTE` event whose execution report is valid UTF-8 but not valid
JSON. -/
def execBadJsonEvt : IpuTraceEvent :=
  ⟨.EXECUTE, .empty, .empty, .empty, .empty, .badJson⟩

/-- A compilation report with two IPUs, four tiles and per-tile memory
totals ten, twenty, thirty and forty bytes. -/
def compileEndReportJson : JsonValue :=
  .obj [("memory", .obj [("byTile", .obj [("total", .arr [.num 10, .num 20, .num 30, .num 40])])]),
        ("target", .obj [("numIPUs", .num 2), ("numTiles", .num 4)])]

/-- A `COMPILE_END` event carrying that report, an empty tensor mapping and
an empty instruction-info object. -/
def compileEndEvt : IpuTraceEvent :=
  ⟨.COMPILE_END, .decodes compileEndReportJson, .decodes (.obj [("mappings", .obj [])]),
    .decodes (.obj []), .empty, .empty⟩

/-- The decoded state produced by parsing `[compileEndEvt]`. -/
def stCE : ReportJSON :=
  ⟨⟨some compileEndReportJson, Option.none, Option.none, Option.none⟩,
    some ⟨((4 : ℤ) : ℚ) / ((2 : ℤ) : ℚ), []⟩, JsonValue.obj []⟩

/-- A tensor map with a fractional tiles-per-IPU ratio of three halves and
one computation placing a tensor on tiles zero and three. -/
def wtm : TensorMap :=
  ⟨(3 : ℚ) / (2 : ℚ),
    [("comp", [⟨.null, .null, .null, .null, false, false, .num 2, [⟨0, 1⟩, ⟨3, 1⟩]⟩])]⟩

theorem parseLoop_cons (st : ReportJSON) (hist : List (EventType × Nat))
    (e : IpuTraceEvent) (rest : List IpuTraceEvent) :
    parseLoop st hist (e :: rest)
      = match processEvent st e with
        | (st2, Option.none) => parseLoop st2 (histIncr hist e.type) rest
        | (st2, some PyErr.unicodeDecodeError) => parseLoop st2 (histIncr hist e.type) rest
        | (_, some err) => .error err := rfl

theorem parse_events_eq_loop (s : ReportJSON) (events : List IpuTraceEvent)
    (al : Option Nat) (msg : String) (h : assertLenPasses al events.length) :
    ReportJSON.parse_events s events al msg
      = parseLoop ReportJSON.initDecodeState [] events := by
  cases al with
  | none => rfl
  | some n =>
    have hcond : ¬(n ≠ 0 ∧ n ≠ events.length) := by
      simp only [assertLenPasses] at h
      rcases h with h | h <;> simp [h]
    simp only [ReportJSON.parse_events, if_neg hcond]

theorem parseLoop_append (st : ReportJSON) (hist : List (EventType × Nat))
    (l1 l2 : List IpuTraceEvent) (hist2 : List (EventType × Nat)) (st2 : ReportJSON)
    (hok : parseLoop st hist l1 = .ok (hist2, st2)) :
    parseLoop st hist (l1 ++ l2) = parseLoop st2 hist2 l2 := by
  induction l1 generalizing st hist with
  | nil =>
    simp only [parseLoop] at hok
    cases hok
    rfl
  | cons e rest ih =>
    rw [List.cons_append, parseLoop_cons]
    rw [parseLoop_cons] at hok
    rcases hpe : processEvent st e with ⟨st3, oe⟩
    rw [hpe] at hok
    cases oe with
    | none => exact ih _ _ hok
    | some err => cases err <;> first | exact ih _ _ hok | simp at hok

theorem pyInt_eq_floor (q : ℚ) (h : 0 ≤ q) : pyInt q = ⌊q⌋ := by
  simp only [pyInt]
  rw [Rat.floor_def]
  exact Int.tdiv_eq_ediv (Rat.num_nonneg.mpr h) (Int.natCast_nonneg q.den)

theorem mnwGo_not_mem_empty (wl : List String) (names : List String) :
    "" ∉ mnwGo wl names := by
  induction names with
  | nil => simp [mnwGo]
  | cons n rest ih =>
    simp only [mnwGo]
    split
    next hcond =>
      intro hmem
      rcases List.mem_cons.mp hmem with h1 | h1
      · have hne : n ≠ "" := by
          have := (Bool.and_eq_true _ _).mp hcond
          exact bne_iff_ne.mp this.1
        exact hne h1.symm
      · exact ih h1
    next => exact ih

/-- C1: during `ReportJSON.parse_events`, if a second event of kind
`COMPILE_END`, `HOST_TO_DEVICE_TRANSFER` or `DEVICE_TO_HOST_TRANSFER` with
a non-empty payload is encountered after one of the same kind has already
been recorded, the decode aborts and the `AssertionError` propagates out of
`parse_events` (only `UnicodeDecodeError` is caught). -/
theorem parse_events_duplicate_singleton_asserts
    (s st : ReportJSON) (pre post : List IpuTraceEvent) (e : IpuTraceEvent)
    (al : Option Nat) (msg : String) (hist : List (EventType × Nat))
    (hlen : assertLenPasses al (pre ++ e :: post).length)
    (hpre : parseLoop ReportJSON.initDecodeState [] pre = .ok (hist, st))
    (hrec : recordedSingleton st e.type = true)
    (hpay : payloadTruthy (singletonGuardPayload e) = true) :
    ReportJSON.parse_events s (pre ++ e :: post) al msg = .error PyErr.assertionError := by
  rw [parse_events_eq_loop s _ al msg hlen]
  rw [parseLoop_append _ _ _ _ _ _ hpre]
  have hproc : processEvent st e = (st, some PyErr.assertionError) := by
    rcases e with ⟨ty, cr, tmp, ii, dt, er⟩
    cases ty <;>
      simp only [recordedSingleton] at hrec <;>
      simp only [singletonGuardPayload] at hpay <;>
      first
        | cases hrec
        | simp [processEvent, hpay, hrec]
  rw [parseLoop_cons, hproc]

/-- C1 witness: two `HOST_TO_DEVICE_TRANSFER` events with non-empty
transfer payloads make `parse_events` abort with the assertion failure. -/
theorem parse_events_duplicate_singleton_asserts_witness :
    ReportJSON.parse_events ReportJSON.initDecodeState [h2dEvt, h2dEvt] Option.none ""
      = .error PyErr.assertionError :=
  parse_events_duplicate_singleton_asserts ReportJSON.initDecodeState
    ⟨⟨Option.none, some JsonValue.null, Option.none, Option.none⟩, Option.none, JsonValue.obj []⟩
    [h2dEvt] [] h2dEvt Option.none "" [(EventType.HOST_TO_DEVICE_TRANSFER, 1)]
    trivial rfl rfl rfl

/-- C2 counterexample: an event whose payload text is not decodable (valid
UTF-8 but invalid JSON) is not skipped — the `JSONDecodeError` escapes
`parse_events` and the remaining events are never decoded, contrary to the
claim that any undecodable payload is skipped with decoding continuing. -/
theorem parse_events_bad_json_raises :
    ReportJSON.parse_events ReportJSON.initDecodeState [execBadJsonEvt, loadEngineEvt]
        Option.none ""
      = .error PyErr.jsonDecodeError := rfl

/-- C2 (amended): if an event's payload fails UTF-8 decoding (the
`UnicodeDecodeError` case), only that event's decode step is skipped and
`parse_events` continues with the remaining events from the partially
updated state, raising nothing for that event. -/
theorem parse_events_skips_unicode_decode_errors
    (s st : ReportJSON) (pre post : List IpuTraceEvent) (e : IpuTraceEvent)
    (al : Option Nat) (msg : String) (hist : List (EventType × Nat))
    (hlen : assertLenPasses al (pre ++ e :: post).length)
    (hpre : parseLoop ReportJSON.initDecodeState [] pre = .ok (hist, st))
    (he : (processEvent st e).2 = some PyErr.unicodeDecodeError) :
    ReportJSON.parse_events s (pre ++ e :: post) al msg
      = parseLoop (processEvent st e).1 (histIncr hist e.type) post := by
  rw [parse_events_eq_loop s _ al msg hlen]
  rw [parseLoop_append _ _ _ _ _ _ hpre]
  rw [parseLoop_cons]
  rcases hpe : processEvent st e with ⟨st3, oe⟩
  rw [hpe] at he
  simp only at he
  rw [he]

/-- C2 (amended) witness: an `EXECUTE` event with a non-UTF-8 execution
report is skipped (but still counted) and the following event is decoded. -/
theorem parse_events_skips_unicode_decode_errors_witness :
    ReportJSON.parse_events ReportJSON.initDecodeState [execBadUtf8Evt, loadEngineEvt]
        Option.none ""
      = .ok ([(EventType.EXECUTE, 1), (EventType.LOAD_ENGINE, 1)], ReportJSON.initDecodeState) := by
  have h := parse_events_skips_unicode_decode_errors ReportJSON.initDecodeState
    ReportJSON.initDecodeState [] [loadEngineEvt] execBadUtf8Evt Option.none "" []
    trivial rfl rfl
  exact h.trans rfl

/-- C3 counterexample: a supplied expected count of zero is falsy, so the
count check is skipped entirely — with one record and an expected count of
zero (which differ), `parse_events` succeeds instead of failing with a
count-mismatch error. -/
theorem parse_events_assert_len_zero_counterexample :
    ReportJSON.parse_events ReportJSON.initDecodeState [loadEngineEvt] (some 0) "boom"
      = .ok ([(EventType.LOAD_ENGINE, 1)], ReportJSON.initDecodeState) := rfl

/-- C3 (amended): for every supplied non-zero expected count, a record
count that differs fails with a count-mismatch error carrying the expected
count, the actual count and the caller-supplied message, and an agreeing
count lets decoding proceed exactly as with no expected count; a supplied
count of zero is falsy in Python and is treated as absent. -/
theorem parse_events_assert_len_nonzero
    (s : ReportJSON) (events : List IpuTraceEvent) (n : Nat) (msg : String)
    (hn : n ≠ 0) :
    (n ≠ events.length →
      ReportJSON.parse_events s events (some n) msg
        = .error (PyErr.testFailure n events.length msg)) ∧
    (n = events.length →
      ReportJSON.parse_events s events (some n) msg
        = ReportJSON.parse_events s events Option.none msg) := by
  constructor
  · intro hne
    simp [ReportJSON.parse_events, hn, hne]
  · intro heq
    subst heq
    simp [ReportJSON.parse_events]

/-- C3 (amended) witness: an expected count of two against one record
fails with the count-mismatch error carrying both numbers and the message. -/
theorem parse_events_assert_len_nonzero_witness :
    ReportJSON.parse_events ReportJSON.initDecodeState [loadEngineEvt] (some 2) "m"
      = .error (PyErr.testFailure 2 1 "m") :=
  (parse_events_assert_len_nonzero ReportJSON.initDecodeState [loadEngineEvt] 2 "m"
    (by decide)).1 (by decide)

/-- C4: the empty event list decodes to an empty event-kind histogram, and
the derived queries requiring a compilation report (each-tile memory,
compute sets, IPU count) all fail on the resulting state — the lookup of
the absent compile-end entry fails (Python raises `KeyError`) instead of
returning empty or default data. -/
theorem parse_events_empty_histogram :
    ReportJSON.parse_events ReportJSON.initDecodeState [] Option.none ""
        = .ok ([], ReportJSON.initDecodeState) ∧
      ReportJSON.get_each_tile_memory ReportJSON.initDecodeState = Option.none ∧
      ReportJSON.get_compute_sets ReportJSON.initDecodeState = Option.none ∧
      ReportJSON.get_num_ipus ReportJSON.initDecodeState = Option.none :=
  ⟨rfl, rfl, rfl, rfl⟩

/-- C5: after any successful decode whose state carries a compile-end
report with integer tile and IPU counts and a non-zero IPU count,
`get_num_tiles_per_ipu` is the exact rational quotient of tiles by IPUs,
and IPUs times tiles-per-IPU recovers the tile count exactly (hence also
up to integer truncation). -/
theorem get_num_tiles_eq_ipus_mul_tiles_per_ipu
    (s : ReportJSON) (events : List IpuTraceEvent) (al : Option Nat) (msg : String)
    (hist : List (EventType × Nat)) (st : ReportJSON) (t i : ℤ)
    (hp : ReportJSON.parse_events s events al msg = .ok (hist, st))
    (ht : ReportJSON.get_num_tiles st = some (JsonValue.num t))
    (hi : ReportJSON.get_num_ipus st = some (JsonValue.num i))
    (hi0 : i ≠ 0) :
    ReportJSON.get_num_tiles_per_ipu st = some ((t : ℚ) / (i : ℚ)) ∧
      ((i : ℚ) * ((t : ℚ) / (i : ℚ)) = (t : ℚ)) := by
  have hiQ : (i : ℚ) ≠ 0 := Int.cast_ne_zero.mpr hi0
  constructor
  · simp [ReportJSON.get_num_tiles_per_ipu, ht, hi, asInt, hi0]
  · rw [mul_comm]
    exact div_mul_cancel₀ _ hiQ

/-- C5 witness: the single-compile-end scenario with four tiles and two
IPUs, decoded by `parse_events`. -/
theorem get_num_tiles_eq_ipus_mul_tiles_per_ipu_witness :
    ReportJSON.get_num_tiles_per_ipu stCE = some (((4 : ℤ) : ℚ) / ((2 : ℤ) : ℚ)) ∧
      (((2 : ℤ) : ℚ) * (((4 : ℤ) : ℚ) / ((2 : ℤ) : ℚ)) = ((4 : ℤ) : ℚ)) :=
  get_num_tiles_eq_ipus_mul_tiles_per_ipu ReportJSON.initDecodeState [compileEndEvt]
    Option.none "" [(EventType.COMPILE_END, 1)] stCE 4 2 rfl rfl rfl (by decide)

/-- C6: decoding the single `COMPILE_END` event whose report has two IPUs,
four tiles and per-tile totals ten, twenty, thirty and forty yields a state
where `get_num_ipus` is two, `get_total_tile_memory` is one hundred and
`get_max_tile_memory` is forty. -/
theorem compile_end_scenario :
    (ReportJSON.parse_events ReportJSON.initDecodeState [compileEndEvt] Option.none
        "").toOption.map
        (fun r => (ReportJSON.get_num_ipus r.2, ReportJSON.get_total_tile_memory r.2,
          ReportJSON.get_max_tile_memory r.2))
      = some (some (JsonValue.num 2), some 100, some 40) := rfl

/-- C7: the whitelist entry suffixed with its implicit wildcard matches the
name with the slash-continued suffix under anchored shell-glob semantics,
so checking the two names against the one-entry whitelist reports exactly
the pool name as missing from the whitelist and no whitelist entry as
missing from the names. -/
theorem whitelist_pattern_scenario :
    missing_names_in_whitelist_entries ["convXXX/Conv2D", "poolXXX"] ["convXXX"]
        = ["poolXXX"] ∧
      missing_whitelist_entries_in_names ["convXXX/Conv2D", "poolXXX"] ["convXXX"] = [] := by
  decide

/-- C8: `parse_events` rebuilds all decoded state (`events`, `tensor_map`,
`instruction_info`) from scratch and never reads the prior state, so
decoding the same event list from any two prior states — in particular
decoding the same list twice, or after a decode of a different list —
yields identical results, and hence identical histograms and identical
values for every derived query (a sample of which is stated explicitly). -/
theorem parse_events_stateless (s1 s2 : ReportJSON) (events : List IpuTraceEvent)
    (al : Option Nat) (msg : String) :
    ReportJSON.parse_events s1 events al msg = ReportJSON.parse_events s2 events al msg ∧
      Except.map
          (fun r => (r.1, ReportJSON.get_each_tile_memory r.2,
            ReportJSON.get_compute_sets r.2, ReportJSON.get_num_ipus r.2,
            ReportJSON.get_num_tiles_per_ipu r.2))
          (ReportJSON.parse_events s1 events al msg)
        = Except.map
          (fun r => (r.1, ReportJSON.get_each_tile_memory r.2,
            ReportJSON.get_compute_sets r.2, ReportJSON.get_num_ipus r.2,
            ReportJSON.get_num_tiles_per_ipu r.2))
          (ReportJSON.parse_events s2 events al msg) :=
  ⟨rfl, rfl⟩

/-- C9: for a tensor map whose tile ids are all non-negative and whose
(possibly fractional) tiles-per-IPU ratio is positive — as it is for any
decoded report, being tiles divided by IPUs — `ipu_ids` is exactly the
image of the tile-id set under flooring the real quotient of tile id by
tiles-per-IPU: for non-negative quotients the `int()` truncation performed
by the source coincides with the floor. -/
theorem ipu_ids_eq_floor_image (tm : TensorMap) (sel : Selection) (ids : Finset ℤ)
    (hq : 0 < tm.num_tiles_per_ipu)
    (hids : TensorMap.tile_ids tm sel = .ok ids)
    (hnn : ∀ t ∈ ids, (0 : ℤ) ≤ t) :
    TensorMap.ipu_ids tm sel
      = .ok (Finset.image (fun (tid : ℤ) => ⌊(tid : ℚ) / tm.num_tiles_per_ipu⌋) ids) := by
  unfold TensorMap.ipu_ids
  rw [hids]
  simp only [Except.map]
  congr 1
  apply Finset.image_congr
  intro t ht
  have htm : t ∈ ids := by simpa using ht
  have hnum : (0 : ℚ) ≤ (t : ℚ) / tm.num_tiles_per_ipu :=
    div_nonneg (by exact_mod_cast hnn t htm) hq.le
  exact pyInt_eq_floor _ hnum

/-- C9 witness: a tensor map with tiles-per-IPU three halves and tile ids
zero and three; the derived IPU ids are the floors of the real quotients. -/
theorem ipu_ids_eq_floor_image_witness :
    TensorMap.ipu_ids wtm Selection.all
      = .ok (Finset.image (fun (tid : ℤ) => ⌊(tid : ℚ) / wtm.num_tiles_per_ipu⌋) {0, 3}) :=
  ipu_ids_eq_floor_image wtm Selection.all {0, 3}
    (by rw [show wtm.num_tiles_per_ipu = (3 : ℚ) / (2 : ℚ) from rfl]; norm_num)
    (by decide) (by decide)

/-- C10: `missing_names_in_whitelist_entries` never reports an empty-string
name, for any name list and whitelist: the loop skips falsy names
unconditionally before consulting the whitelist. -/
theorem missing_names_never_contains_empty (names whitelist : List String) :
    "" ∉ missing_names_in_whitelist_entries names whitelist :=
  mnwGo_not_mem_empty _ names
